import Mathlib

/-!
Shallow embedding of `src/node-mem/mem.py` (`KubernetesMemoryAnalyzer`), a
read-only Kubernetes memory diagnostic.  Pure functions of the script become
Lean functions; the Kubernetes API and the metrics API are modelled as explicit
data (a `Cluster` value and a `MetricsOracle` of fetch outcomes); Python
exceptions become `Except` values, and a Python function that catches all
exceptions and returns `None` becomes a function into `Option`.

Deviations of the model from Python, each noted at its definition:
* Python's `re` class `\d` also matches non-ASCII Unicode decimal digits; the
  model restricts to ASCII `0-9` (no claim exercises non-ASCII digits).
* `int(number * (1/1024))` in `parse_memory` goes through IEEE-754 doubles;
  since `1/1024` is an exact power of two, it equals floor division
  `number / 1024` for every `number < 2^53` (about 8 EiB when read as KiB),
  and the model uses exact floor division.
* Utilization percentages are modelled as exact rationals rather than doubles.
-/

namespace NodeMem

/-- Equality of `Except` outcomes is decidable componentwise. -/
instance {ε α : Type} [DecidableEq ε] [DecidableEq α] : DecidableEq (Except ε α) := fun a b =>
  match a, b with
  | .ok x, .ok y =>
    if h : x = y then isTrue (by rw [h]) else isFalse (fun he => h (by cases he; rfl))
  | .error x, .error y =>
    if h : x = y then isTrue (by rw [h]) else isFalse (fun he => h (by cases he; rfl))
  | .ok _, .error _ => isFalse (fun he => by cases he)
  | .error _, .ok _ => isFalse (fun he => by cases he)

/-- Error raised by `parse_memory` (`ValueError` in the source): either
`Invalid memory format: {value}` or `Unsupported memory unit: {unit}`. -/
inductive QuantityError where
  | invalidFormat (value : String)
  | unsupportedUnit (unit : String)
  deriving DecidableEq, Repr

/-- ASCII decimal digit, the `\d` class of the source regex restricted to
ASCII (Python's `\d` additionally accepts non-ASCII Unicode digits). -/
def isDigitCh (c : Char) : Bool :=
  48 ≤ c.toNat && c.toNat ≤ 57

/-- The `[a-zA-Z]` class of the source regex. -/
def isAlphaCh (c : Char) : Bool :=
  (65 ≤ c.toNat && c.toNat ≤ 90) || (97 ≤ c.toNat && c.toNat ≤ 122)

/-- Numeric value of a digit string, as `int(match.group(1))` computes it. -/
def digitsToNat (ds : List Char) : Nat :=
  ds.foldl (fun a c => a * 10 + (c.toNat - 48)) 0

/-- Python's `$` anchor also matches just before a single newline that ends
the string, so `re.match(r"...$", s)` tolerates one trailing `\n`. -/
def dropTrailingNewline (cs : List Char) : List Char :=
  match cs.getLast? with
  | some c => if c = '\n' then cs.dropLast else cs
  | none => cs

/-- `re.match(r"^(\d+)([a-zA-Z]+)?$", value)`: the numeric value of group 1
and group 2 (`none` when the optional unit group is absent).  Because digits
and letters are disjoint, a successful match always has group 1 equal to the
maximal digit prefix and group 2 equal to the (all-letter) remainder. -/
def matchQuantity (value : String) : Option (Nat × Option String) :=
  let cs := dropTrailingNewline value.toList
  let ds := cs.takeWhile isDigitCh
  let rest := cs.dropWhile isDigitCh
  if ds.isEmpty then none
  else if rest.isEmpty then some (digitsToNat ds, none)
  else if rest.all isAlphaCh then some (digitsToNat ds, some (String.mk rest))
  else none

/-- The `units` table of `parse_memory`, with each factor as an exact
fraction (numerator, denominator): `Ki ↦ 1/1024`, `M, Mi ↦ 1`,
`G, Gi ↦ 1024`. -/
def quantityUnits (u : String) : Option (Nat × Nat) :=
  if u = "Ki" then some (1, 1024)
  else if u = "M" then some (1, 1)
  else if u = "Mi" then some (1, 1)
  else if u = "G" then some (1024, 1)
  else if u = "Gi" then some (1024, 1)
  else none

/-- `KubernetesMemoryAnalyzer.parse_memory` (mem.py lines 54-70).
`int(number * units[unit])` truncates toward zero a non-negative value, i.e.
floor division; for the one fractional factor `1/1024` the Python double
arithmetic is exact below `2^53`, see the module comment. -/
def parse_memory (value : String) : Except QuantityError Nat :=
  match matchQuantity value with
  | none => .error (.invalidFormat value)
  | some (number, unitOpt) =>
    -- `unit = match.group(2) or "M"`
    let unit := unitOpt.getD "M"
    match quantityUnits unit with
    | none => .error (.unsupportedUnit unit)
    | some (num, den) => .ok (number * num / den)

example : parse_memory "6374M" = .ok 6374 := by decide
example : parse_memory "1024Ki" = .ok 1 := by decide
example : parse_memory "2G" = .ok 2048 := by decide
example : parse_memory "500" = .ok 500 := by decide
example : parse_memory "2X" = .error (.unsupportedUnit "X") := by decide
example : parse_memory "abc" = .error (.invalidFormat "abc") := by decide
example : parse_memory "500Ki" = .ok 0 := by decide

/-! ## Metrics models and the metrics API oracle -/

/-- `ResourceUsage` pydantic model. -/
structure ResourceUsage where
  cpu : String
  memory : String
  deriving DecidableEq, Repr

/-- `NodeMetrics` pydantic model; the `metadata` dict is never read. -/
structure NodeMetrics where
  apiVersion : String
  kind : String
  timestamp : String
  window : String
  usage : ResourceUsage
  deriving DecidableEq, Repr

/-- `ContainerUsage` pydantic model. -/
structure ContainerUsage where
  name : String
  usage : ResourceUsage
  deriving DecidableEq, Repr

/-- `PodMetrics` pydantic model; the `metadata` dict is never read. -/
structure PodMetrics where
  apiVersion : String
  kind : String
  timestamp : String
  window : String
  containers : List ContainerUsage
  deriving DecidableEq, Repr

/-- Outcomes of the two metrics-API calls of `get_memory_utilization`.  A
transport error or a response failing pydantic validation is an `.error`
with its message; a validated response is `.ok`. -/
structure MetricsOracle where
  nodeMetrics : String → Except String NodeMetrics
  podMetrics : Option String → String → Except String PodMetrics

/-- Errors of the `try` body of `get_memory_utilization`; all of them are
caught by its `except Exception` handler. -/
inductive FetchError where
  | api (msg : String)
  | parse (e : QuantityError)
  | unsupportedResourceType (rt : String)
  deriving DecidableEq, Repr

/-- The `try` body of `get_memory_utilization` (mem.py lines 124-146):
`node` fetches one metrics object and parses `usage.memory`; `pod` fetches
one metrics object and sums the parsed memory of every container (Python's
`sum` over a generator stops at the first raised error, as `mapM` does);
any other resource type raises `ValueError`. -/
def get_memory_utilization_inner (o : MetricsOracle) (resource_type : String)
    (nspace : Option String) (name : String) : Except FetchError Nat :=
  if resource_type = "node" then do
    let nm ← (o.nodeMetrics name).mapError FetchError.api
    (parse_memory nm.usage.memory).mapError FetchError.parse
  else if resource_type = "pod" then do
    let pm ← (o.podMetrics nspace name).mapError FetchError.api
    let ms ← (pm.containers.mapM (fun ct => parse_memory ct.usage.memory)).mapError FetchError.parse
    pure ms.sum
  else .error (.unsupportedResourceType resource_type)

/-- `KubernetesMemoryAnalyzer.get_memory_utilization` (mem.py lines 120-150):
the `try` body wrapped in `except Exception: log; return None`. -/
def get_memory_utilization (o : MetricsOracle) (resource_type : String)
    (nspace : Option String) (name : String) : Option Nat :=
  match get_memory_utilization_inner o resource_type nspace name with
  | .ok v => some v
  | .error _ => none

/-! ## Cluster objects -/

/-- One entry of `metadata.owner_references`. -/
structure OwnerReference where
  kind : String
  name : String
  deriving DecidableEq, Repr

/-- The fields of `client.V1Pod` the script reads: `metadata.name`,
`metadata.namespace`, `spec.node_name`, `metadata.owner_references` (absent
modelled as `[]`) and `metadata.labels`. -/
structure V1Pod where
  name : String
  nspace : String
  nodeName : String
  ownerReferences : List OwnerReference
  labels : List (String × String)
  deriving DecidableEq, Repr

/-- A ReplicaSet / StatefulSet / DaemonSet object: `metadata.name`,
`metadata.namespace`, `spec.selector.match_labels` and (for ReplicaSets)
`metadata.owner_references`. -/
structure ControllerObj where
  name : String
  nspace : String
  matchLabels : List (String × String)
  ownerReferences : List OwnerReference
  deriving DecidableEq, Repr

/-- A node as the script reads it: `metadata.name` and the
`status.capacity["memory"]` string. -/
structure NodeD where
  name : String
  capacityMemory : String
  deriving DecidableEq, Repr

/-- The cluster objects behind the `core_api` / `apps_api` calls. -/
structure Cluster where
  nodes : List NodeD
  pods : List V1Pod
  replicaSets : List ControllerObj
  statefulSets : List ControllerObj
  daemonSets : List ControllerObj
  deriving DecidableEq, Repr

/-- Errors escaping `fetch_pods_for_controller`: the script's own
`ValueError(f"Unsupported controller kind: {kind}")`, or an `ApiException`
from `read_namespaced_*` when the controller object does not exist. -/
inductive ControllerError where
  | unsupportedKind (kind : String)
  | apiNotFound (kind : String) (name : String)
  deriving DecidableEq, Repr

/-- `read_namespaced_replica_set` / `_stateful_set` / `_daemon_set`: look the
controller object up by name in its namespace; a missing object raises an
`ApiException` (modelled as `.apiNotFound`). -/
def read_controller (c : Cluster) (kind name nspace : String) :
    Except ControllerError ControllerObj :=
  let pool := if kind = "ReplicaSet" then c.replicaSets
              else if kind = "StatefulSet" then c.statefulSets
              else c.daemonSets
  match pool.find? (fun k => k.name == name && k.nspace == nspace) with
  | some k => .ok k
  | none => .error (.apiNotFound kind name)

/-- `list_namespaced_pod(namespace, label_selector=...)` where the selector is
the comma-joined `key=value` pairs of the controller's match labels: the pods
of the namespace carrying every selector label (the AND semantics the
Kubernetes API gives that selector string). -/
def list_namespaced_pod (c : Cluster) (nspace : String)
    (sel : List (String × String)) : List V1Pod :=
  c.pods.filter (fun p => p.nspace == nspace && sel.all (fun kv => p.labels.contains kv))

/-- The ReplicaSet/StatefulSet/DaemonSet branch of `fetch_pods_for_controller`
(mem.py lines 81-96): read the controller, extract its match labels, list the
matching pods.  The source's final `else: raise` inside this branch is dead
code (the branch is only entered for the three kinds). -/
def fetch_pods_selector (c : Cluster) (kind name nspace : String) :
    Except ControllerError (List V1Pod) := do
  let ctrl ← read_controller c kind name nspace
  pure (list_namespaced_pod c nspace ctrl.matchLabels)

/-- `KubernetesMemoryAnalyzer.fetch_pods_for_controller` (mem.py lines 72-107).
For a Deployment it scans the namespace's ReplicaSets for the first one with
an owner reference of kind `Deployment` and the given name and recurses into
the ReplicaSet branch; when no ReplicaSet matches, control falls through to
the final `raise ValueError(f"Unsupported controller kind: Deployment")`. -/
def fetch_pods_for_controller (c : Cluster) (controller_kind controller_name nspace : String) :
    Except ControllerError (List V1Pod) :=
  if controller_kind = "ReplicaSet" ∨ controller_kind = "StatefulSet"
      ∨ controller_kind = "DaemonSet" then
    fetch_pods_selector c controller_kind controller_name nspace
  else if controller_kind = "Deployment" then
    match (c.replicaSets.filter (fun rs => rs.nspace == nspace)).find?
        (fun rs => rs.ownerReferences.any
          (fun ow => ow.kind == "Deployment" && ow.name == controller_name)) with
    | some rs => fetch_pods_selector c "ReplicaSet" rs.name nspace
    | none => .error (.unsupportedKind controller_kind)
  else .error (.unsupportedKind controller_kind)

/-- `KubernetesMemoryAnalyzer.get_controller_kind_and_name` (mem.py lines
109-118): the kind and name of the pod's first owner reference, or
`(none, none)` when it has no owner references. -/
def get_controller_kind_and_name (pod : V1Pod) : Option String × Option String :=
  match pod.ownerReferences with
  | [] => (none, none)
  | ow :: _ => (some ow.kind, some ow.name)

/-! ## Node analysis -/

/-- Exceptions the node loop can raise uncaught (mem.py line 168 and 174):
`int(...)` on a malformed capacity string, and division by a zero capacity. -/
inductive PyError where
  | valueError (s : String)
  | zeroDivisionError
  deriving DecidableEq, Repr

/-- Python's `str.rstrip("Ki")`: remove every trailing character belonging to
the set `{K, i}`. -/
def pyRstripKi (s : String) : String :=
  String.mk ((s.toList.reverse.dropWhile (fun c => c == 'K' || c == 'i')).reverse)

/-- Python's `int(s)` on the stripped capacity string: the value of a
non-empty all-digit string, `none` (a `ValueError`) otherwise.  (Python's
`int` also tolerates sign, surrounding whitespace and underscores; Kubernetes
capacity strings are plain digits plus unit, so that is not exercised.) -/
def pyIntOfString (s : String) : Option Nat :=
  if s.toList ≠ [] ∧ s.toList.all isDigitCh then some (digitsToNat s.toList) else none

/-- One row of the node table: name, `math.ceil` of capacity and usage, the
exact utilization percentage, and the status string.  (`used_memory` is
already an integer, so its `math.ceil` is itself; the `"{:,}"` thousands
formatting of the rendering layer is out of scope.) -/
structure NodeRow where
  name : String
  capacityCeil : ℤ
  usageCeil : Nat
  utilization : ℚ
  status : String
  deriving DecidableEq, Repr

/-- The status string of a high-usage node. -/
def highUsageStatus : String := "⚠️ High Usage"

/-- `KubernetesMemoryAnalyzer.analyze_nodes` (mem.py lines 152-189) as a
function of the node list: for each node, parse
`int(status.capacity["memory"].rstrip("Ki")) / 1024` (a malformed string
raises `ValueError`), fetch usage (a `none` skips the node before any
division), divide — a zero capacity raises `ZeroDivisionError` — and append
a row plus, above 80%, the node's name to the high-usage list.  The result is
the rendered table's rows and the high-usage names, in listing order. -/
def analyze_nodes (o : MetricsOracle) : List NodeD → Except PyError (List NodeRow × List String)
  | [] => .ok ([], [])
  | node :: rest =>
    match pyIntOfString (pyRstripKi node.capacityMemory) with
    | none => .error (.valueError node.capacityMemory)
    | some capKi =>
      match get_memory_utilization o "node" none node.name with
      | none => analyze_nodes o rest
      | some u =>
        let memory_capacity : ℚ := (capKi : ℚ) / 1024
        if memory_capacity = 0 then .error .zeroDivisionError
        else
          let utilization : ℚ := ((u : ℚ) / memory_capacity) * 100
          let status := if 80 < utilization then highUsageStatus else "OK"
          match analyze_nodes o rest with
          | .error e => .error e
          | .ok (rows, high) =>
            .ok (⟨node.name, ⌈memory_capacity⌉, u, utilization, status⟩ :: rows,
                 if 80 < utilization then node.name :: high else high)

/-! ## Pod analysis on a node -/

/-- The accumulation loop of `analyze_pods_on_node` (mem.py lines 201-214):
`highest_usage_pod = None; highest_usage = 0`, then for each pod whose usage
was fetched, `if pod_memory > highest_usage: update`. -/
def selectTopPodGo : List (V1Pod × Option Nat) → Option V1Pod → Nat → Option V1Pod × Nat
  | [], best, hu => (best, hu)
  | (p, mo) :: t, best, hu =>
    match mo with
    | none => selectTopPodGo t best hu
    | some m => if hu < m then selectTopPodGo t (some p) m else selectTopPodGo t best hu

/-- The top-pod selection over pods paired with their fetched usages. -/
def selectTopPod (l : List (V1Pod × Option Nat)) : Option V1Pod × Nat :=
  selectTopPodGo l none 0

/-- `KubernetesMemoryAnalyzer.analyze_pods_on_node` (mem.py lines 191-219):
list the pods scheduled on the node (the `spec.nodeName` field selector),
fetch each pod's usage, and return the pod with the highest usage — `none`
when no fetched usage exceeds the initial 0. -/
def analyze_pods_on_node (c : Cluster) (o : MetricsOracle) (node_name : String) : Option V1Pod :=
  (selectTopPod ((c.pods.filter (fun p => p.nodeName == node_name)).map
    (fun p => (p, get_memory_utilization o "pod" (some p.nspace) p.name)))).1

/-! ## Controller analysis and the run loop -/

/-- One row of the controller table: pod name, node name, usage. -/
structure CtrlRow where
  podName : String
  nodeName : String
  memory : Nat
  deriving DecidableEq, Repr

/-- Outcome of `analyze_controller`: a rendered table, or an error caught by
its blanket `except Exception` handler and printed. -/
inductive ControllerReport where
  | table (rows : List CtrlRow)
  | caughtError (e : ControllerError)
  deriving DecidableEq, Repr

/-- `KubernetesMemoryAnalyzer.analyze_controller` (mem.py lines 221-244): the
whole body runs under `try`; a `fetch_pods_for_controller` failure is caught
and logged (never re-raised), otherwise each managed pod with a fetched usage
becomes a row (pods whose fetch returns `None` are skipped). -/
def analyze_controller (c : Cluster) (o : MetricsOracle)
    (controller_kind controller_name nspace : String) : ControllerReport :=
  match fetch_pods_for_controller c controller_kind controller_name nspace with
  | .error e => .caughtError e
  | .ok pods => .table (pods.filterMap (fun p =>
      (get_memory_utilization o "pod" (some p.nspace) p.name).map
        (fun m => ⟨p.name, p.nodeName, m⟩)))

/-- Python truthiness of the `str | None` owner fields in
`if controller_kind and controller_name:`. -/
def truthy : Option String → Bool
  | none => false
  | some s => s ≠ ""

/-- What the run loop does for one high-usage node (mem.py lines 252-258):
no top pod skips the controller tier; a falsy owner kind or name skips it;
otherwise the controller is analyzed in the top pod's namespace. -/
inductive NodeDrillDown where
  | skippedNoTopPod
  | skippedNoOwner
  | report (r : ControllerReport)
  deriving DecidableEq, Repr

/-- The body of the per-high-usage-node loop of `run`. -/
def run_node_step (c : Cluster) (o : MetricsOracle) (node_name : String) : NodeDrillDown :=
  match analyze_pods_on_node c o node_name with
  | none => .skippedNoTopPod
  | some pod =>
    let (k, n) := get_controller_kind_and_name pod
    if truthy k && truthy n then
      .report (analyze_controller c o (k.getD "") (n.getD "") pod.nspace)
    else .skippedNoOwner

/-- Everything `run` produces: the node table, the high-usage list, and the
drill-down outcome per high-usage node. -/
structure RunReport where
  nodeRows : List NodeRow
  highUsageNodes : List String
  perNode : List (String × NodeDrillDown)
  deriving DecidableEq, Repr

/-- `KubernetesMemoryAnalyzer.run` (mem.py lines 246-258): the node phase may
raise uncaught (`Except.error`); per-node drill-downs never do. -/
def run (c : Cluster) (o : MetricsOracle) : Except PyError RunReport :=
  match analyze_nodes o c.nodes with
  | .error e => .error e
  | .ok (rows, high) => .ok ⟨rows, high, high.map (fun n => (n, run_node_step c o n))⟩

/-! ## Concrete fixtures -/

/-- An oracle whose every metrics call fails (e.g. metrics-server absent). -/
def noMetricsOracle : MetricsOracle :=
  ⟨fun _ => .error "metrics unavailable", fun _ _ => .error "metrics unavailable"⟩

/-- A cluster with no objects at all. -/
def emptyCluster : Cluster := ⟨[], [], [], [], []⟩

/-- A pod owned by a `Job` — a controller kind the script does not support. -/
def jobPod : V1Pod := ⟨"p1", "default", "n1", [⟨"Job", "j1"⟩], []⟩

/-- One node of 1000 MiB capacity carrying `jobPod`. -/
def jobCluster : Cluster := ⟨[⟨"n1", "1024000Ki"⟩], [jobPod], [], [], []⟩

/-- Metrics: the node uses 801 MiB (80.1%, high usage), every pod 100 MiB. -/
def jobOracle : MetricsOracle :=
  ⟨fun _ => .ok ⟨"metrics.k8s.io/v1beta1", "NodeMetrics", "t", "w", ⟨"0", "801M"⟩⟩,
   fun _ _ => .ok ⟨"metrics.k8s.io/v1beta1", "PodMetrics", "t", "w", [⟨"c1", ⟨"0", "100M"⟩⟩]⟩⟩

example : fetch_pods_for_controller emptyCluster "Deployment" "myapp" "default"
    = .error (.unsupportedKind "Deployment") := by decide

/-- Evaluating the node phase on the fixture: 1024000 Ki is 1000 MiB of
capacity, 801 MiB of usage is 80.1% — a high-usage node. -/
lemma analyze_nodes_jobCluster : analyze_nodes jobOracle jobCluster.nodes
    = .ok ([⟨"n1", 1000, 801, 801 / 10, highUsageStatus⟩], ["n1"]) := by
  have hcap : pyIntOfString (pyRstripKi "1024000Ki") = some 1024000 := by decide
  have hu : get_memory_utilization jobOracle "node" none "n1" = some 801 := by decide
  have hrest : analyze_nodes jobOracle [] = .ok ([], []) := rfl
  simp only [jobCluster, analyze_nodes, hcap, hu, hrest]
  norm_num [highUsageStatus]

/-- The drill-down on the fixture reaches `analyze_controller` with the
unsupported kind `Job`, whose failure is caught there. -/
lemma run_node_step_jobCluster : run_node_step jobCluster jobOracle "n1"
    = .report (.caughtError (.unsupportedKind "Job")) := by decide

/-- The whole fixture run: completes with the `Job` failure caught inside the
controller tier. -/
lemma run_jobCluster : run jobCluster jobOracle
    = .ok ⟨[⟨"n1", 1000, 801, 801 / 10, highUsageStatus⟩], ["n1"],
           [("n1", .report (.caughtError (.unsupportedKind "Job")))]⟩ := by
  simp only [run, analyze_nodes_jobCluster, List.map, run_node_step_jobCluster]

/-- A cluster holding one ReplicaSet owned by the Deployment `web` — so the
Deployment `api` has no matching ReplicaSet. -/
def otherRSCluster : Cluster :=
  ⟨[], [], [⟨"web-1", "default", [("app", "web")], [⟨"Deployment", "web"⟩]⟩], [], []⟩

/-! ## Claim theorems -/

/-- C1 counterexample: for the Deployment `myapp` in a namespace with no
ReplicaSets at all, `fetch_pods_for_controller` does NOT return an empty pod
set — it raises `ValueError("Unsupported controller kind: Deployment")`
(mem.py line 107, reached by fall-through from the Deployment branch). -/
theorem c1_counterexample :
    fetch_pods_for_controller emptyCluster "Deployment" "myapp" "default"
      = .error (.unsupportedKind "Deployment") ∧
    ¬ fetch_pods_for_controller emptyCluster "Deployment" "myapp" "default" = .ok [] := by
  decide

/-- C1 (amended): for every Deployment name and namespace such that no
ReplicaSet in that namespace has an owner reference with kind=Deployment and
a matching name, resolving the Deployment's pod set raises
`ValueError("Unsupported controller kind: Deployment")` (caught and logged
only at the `analyze_controller` level), rather than returning an empty pod
set. -/
theorem c1_deployment_without_rs_raises (c : Cluster) (name nspace : String)
    (h : ∀ rs ∈ c.replicaSets.filter (fun rs => rs.nspace == nspace),
      rs.ownerReferences.any (fun ow => ow.kind == "Deployment" && ow.name == name) = false) :
    fetch_pods_for_controller c "Deployment" name nspace
      = .error (.unsupportedKind "Deployment") := by
  unfold fetch_pods_for_controller
  rw [if_neg (by decide), if_pos rfl]
  rw [List.find?_eq_none.mpr (fun rs hrs => by simp [h rs hrs])]

/-- C1 witness: a namespace whose only ReplicaSet belongs to a different
Deployment. -/
theorem c1_witness :
    fetch_pods_for_controller otherRSCluster "Deployment" "api" "default"
      = .error (.unsupportedKind "Deployment") :=
  c1_deployment_without_rs_raises otherRSCluster "api" "default" (by decide)

/-- C2 counterexample: a full run in which the heaviest pod of a high-usage
node is owned by the unsupported kind `Job`.  The structural failure does NOT
propagate uncaught: `analyze_controller` catches and logs it, and the run
completes normally (exit 0), its report recording the caught error. -/
theorem c2_counterexample :
    run jobCluster jobOracle
      = .ok ⟨[⟨"n1", 1000, 801, 801 / 10, highUsageStatus⟩], ["n1"],
             [("n1", .report (.caughtError (.unsupportedKind "Job")))]⟩ ∧
    analyze_controller jobCluster jobOracle "Job" "j1" "default"
      = .caughtError (.unsupportedKind "Job") :=
  ⟨run_jobCluster, by decide⟩

/-- C2 (amended): for every controller kind outside {Deployment, ReplicaSet,
StatefulSet, DaemonSet}, resolving its pod set fails with
`ValueError("Unsupported controller kind: ...")`; during the run this failure
is caught and logged by the controller-level analysis (the blanket handler of
`analyze_controller`), so the run completes rather than terminating with a
non-zero exit. -/
theorem c2_unsupported_kind_caught (c : Cluster) (o : MetricsOracle)
    (kind name nspace : String)
    (h1 : kind ≠ "ReplicaSet") (h2 : kind ≠ "StatefulSet")
    (h3 : kind ≠ "DaemonSet") (h4 : kind ≠ "Deployment") :
    fetch_pods_for_controller c kind name nspace = .error (.unsupportedKind kind) ∧
    analyze_controller c o kind name nspace = .caughtError (.unsupportedKind kind) := by
  have hf : fetch_pods_for_controller c kind name nspace = .error (.unsupportedKind kind) := by
    unfold fetch_pods_for_controller
    rw [if_neg (by tauto), if_neg h4]
  refine ⟨hf, ?_⟩
  unfold analyze_controller
  rw [hf]

/-- C2 witness: the kind `Job` at a concrete cluster. -/
theorem c2_witness :
    fetch_pods_for_controller jobCluster "Job" "j1" "default"
      = .error (.unsupportedKind "Job") ∧
    analyze_controller jobCluster jobOracle "Job" "j1" "default"
      = .caughtError (.unsupportedKind "Job") :=
  c2_unsupported_kind_caught jobCluster jobOracle "Job" "j1" "default"
    (by decide) (by decide) (by decide) (by decide)

/-- C7: for every pod metrics response, the pod's reported memory usage is
the sum of the parsed memory of every container of the response (Python's
generator sum, which stops at the first parse failure, is `mapM` followed by
`sum`). -/
theorem c7_pod_memory_sums_containers (o : MetricsOracle) (nspace : Option String)
    (name : String) (pm : PodMetrics) (ms : List Nat)
    (hpm : o.podMetrics nspace name = .ok pm)
    (hms : pm.containers.mapM (fun ct => parse_memory ct.usage.memory) = .ok ms) :
    get_memory_utilization o "pod" nspace name = some ms.sum := by
  unfold get_memory_utilization get_memory_utilization_inner
  rw [if_neg (by decide), if_pos rfl]
  have hms' : List.mapM.loop (fun ct => parse_memory ct.usage.memory) pm.containers []
      = Except.ok ms := hms
  simp [hpm, hms', Except.mapError, Except.map, Functor.map, bind, Except.bind,
    pure, Except.pure]

/-- A pod metrics oracle reporting two containers of 100 MiB and 200 MiB. -/
def twoContainerOracle : MetricsOracle :=
  ⟨fun _ => .error "node metrics unavailable",
   fun _ _ => .ok ⟨"metrics.k8s.io/v1beta1", "PodMetrics", "t", "w",
     [⟨"c1", ⟨"0", "100M"⟩⟩, ⟨"c2", ⟨"0", "200M"⟩⟩]⟩⟩

/-- C7 witness: container usages ["100M", "200M"] sum to 300 MiB. -/
theorem c7_witness :
    get_memory_utilization twoContainerOracle "pod" (some "default") "p" = some 300 := by
  have h := c7_pod_memory_sums_containers twoContainerOracle (some "default") "p"
    ⟨"metrics.k8s.io/v1beta1", "PodMetrics", "t", "w",
      [⟨"c1", ⟨"0", "100M"⟩⟩, ⟨"c2", ⟨"0", "200M"⟩⟩]⟩ [100, 200] rfl (by decide)
  simpa using h

/-- C10: `get_memory_utilization` is total and never propagates a failure:
a resource type outside {node, pod} makes its `try` body raise the internal
unsupported-resource-type error, and every error of the `try` body — this one
included — is caught by the blanket handler and turned into `none`. -/
theorem c10_get_memory_utilization_catches_all (o : MetricsOracle) (rt : String)
    (nspace : Option String) (name : String) :
    (rt ≠ "node" → rt ≠ "pod" →
      get_memory_utilization_inner o rt nspace name
        = .error (.unsupportedResourceType rt)) ∧
    ∀ e, get_memory_utilization_inner o rt nspace name = .error e →
      get_memory_utilization o rt nspace name = none := by
  constructor
  · intro h1 h2
    unfold get_memory_utilization_inner
    rw [if_neg h1, if_neg h2]
  · intro e he
    unfold get_memory_utilization
    rw [he]

/-- C10 witness: the unsupported resource type "volume" is caught and
reported as `none`. -/
theorem c10_witness :
    get_memory_utilization_inner noMetricsOracle "volume" none "v1"
      = .error (.unsupportedResourceType "volume") ∧
    get_memory_utilization noMetricsOracle "volume" none "v1" = none := by
  have h := c10_get_memory_utilization_catches_all noMetricsOracle "volume" none "v1"
  have h1 := h.1 (by decide) (by decide)
  exact ⟨h1, h.2 _ h1⟩

/-- A fetched usage of `none` or `some 0` never changes the selection state
of the top-pod loop: the running maximum starts at 0 and the comparison is
strict. -/
lemma selectTopPodGo_zero (l : List (V1Pod × Option Nat))
    (h : ∀ pm ∈ l, pm.2 = none ∨ pm.2 = some 0) (b : Option V1Pod) (hu : Nat) :
    selectTopPodGo l b hu = (b, hu) := by
  induction l generalizing b hu with
  | nil => rfl
  | cons pm t ih =>
    obtain ⟨p, mo⟩ := pm
    have ht : ∀ x ∈ t, x.2 = none ∨ x.2 = some 0 :=
      fun x hx => h x (List.mem_cons_of_mem _ hx)
    rcases h ⟨p, mo⟩ (List.mem_cons_self _ _) with h0 | h0 <;>
      simp only at h0 <;> subst h0
    · exact ih ht b hu
    · show (if hu < 0 then selectTopPodGo t (some p) 0 else selectTopPodGo t b hu) = (b, hu)
      rw [if_neg (Nat.not_lt_zero hu)]
      exact ih ht b hu

/-- C9: a pod whose fetched memory usage is 0 MiB is never selected as a
node's top pod, so when every successfully measured pod on a node reports
0 MiB (and the rest fail to fetch), analyze_pods_on_node returns no top pod
and the run loop skips the controller tier for that node. -/
theorem c9_zero_usage_skips_controller_tier (c : Cluster) (o : MetricsOracle)
    (node_name : String)
    (h : ∀ p ∈ c.pods.filter (fun p => p.nodeName == node_name),
      get_memory_utilization o "pod" (some p.nspace) p.name = none ∨
      get_memory_utilization o "pod" (some p.nspace) p.name = some 0) :
    analyze_pods_on_node c o node_name = none ∧
    run_node_step c o node_name = .skippedNoTopPod := by
  have hmap : ∀ pm ∈ (c.pods.filter (fun p => p.nodeName == node_name)).map
      (fun p => (p, get_memory_utilization o "pod" (some p.nspace) p.name)),
      pm.2 = none ∨ pm.2 = some 0 := by
    intro pm hpm
    rw [List.mem_map] at hpm
    obtain ⟨p, hp, rfl⟩ := hpm
    exact h p hp
  have hnone : analyze_pods_on_node c o node_name = none := by
    unfold analyze_pods_on_node selectTopPod
    rw [selectTopPodGo_zero _ hmap none 0]
  refine ⟨hnone, ?_⟩
  unfold run_node_step
  rw [hnone]

/-- Metrics where every pod reports a single container using "0M". -/
def zeroPodOracle : MetricsOracle :=
  ⟨fun _ => .error "node metrics unavailable",
   fun _ _ => .ok ⟨"metrics.k8s.io/v1beta1", "PodMetrics", "t", "w",
     [⟨"c1", ⟨"0", "0M"⟩⟩]⟩⟩

/-- C9 witness: the fixture node whose only pod measures 0 MiB. -/
theorem c9_witness :
    analyze_pods_on_node jobCluster zeroPodOracle "n1" = none ∧
    run_node_step jobCluster zeroPodOracle "n1" = .skippedNoTopPod :=
  c9_zero_usage_skips_controller_tier jobCluster zeroPodOracle "n1" (by decide)

/-- The maximum usage among a list of (pod, usage) pairs, folded left over
the listing order from an initial running maximum. -/
def foldUsageMax (hu : Nat) (l : List (V1Pod × Nat)) : Nat :=
  l.foldl (fun a pm => max a pm.2) hu

lemma le_foldUsageMax (hu : Nat) (l : List (V1Pod × Nat)) : hu ≤ foldUsageMax hu l := by
  induction l generalizing hu with
  | nil => exact le_refl hu
  | cons pm t ih => exact le_trans (Nat.le_max_left hu pm.2) (ih (max hu pm.2))

lemma foldUsageMax_mem_le {l : List (V1Pod × Nat)} (pm : V1Pod × Nat) (hmem : pm ∈ l)
    (hu : Nat) : pm.2 ≤ foldUsageMax hu l := by
  induction l generalizing hu with
  | nil => cases hmem
  | cons q t ih =>
    rcases List.mem_cons.mp hmem with rfl | hmem'
    · exact le_trans (Nat.le_max_right hu pm.2) (le_foldUsageMax _ t)
    · exact ih hmem' _

lemma foldUsageMax_all_le {l : List (V1Pod × Nat)} (hu : Nat)
    (h : ∀ pm ∈ l, pm.2 ≤ hu) : foldUsageMax hu l = hu := by
  induction l with
  | nil => rfl
  | cons q t ih =>
    show foldUsageMax (max hu q.2) t = hu
    rw [max_eq_left (h q (List.mem_cons_self _ _))]
    exact ih (fun pm hpm => h pm (List.mem_cons_of_mem _ hpm))

/-- When every remaining usage is at most the running maximum, the strict
comparison never fires and the selection state is unchanged. -/
lemma selectTopPodGo_all_le (l : List (V1Pod × Nat)) (b : Option V1Pod) (hu : Nat)
    (h : ∀ pm ∈ l, pm.2 ≤ hu) :
    selectTopPodGo (l.map (fun pm => (pm.1, some pm.2))) b hu = (b, hu) := by
  induction l generalizing b hu with
  | nil => rfl
  | cons q t ih =>
    obtain ⟨p, m⟩ := q
    have hm : m ≤ hu := h ⟨p, m⟩ (List.mem_cons_self _ _)
    simp only [List.map, selectTopPodGo]
    rw [if_neg (Nat.not_lt.mpr hm)]
    exact ih b hu (fun x hx => h x (List.mem_cons_of_mem _ hx))

/-- The strict-greater loop, started below some usage of the list, ends on
the first pod attaining the overall maximum. -/
lemma selectTopPodGo_first_max (l : List (V1Pod × Nat)) (b : Option V1Pod) (hu : Nat)
    (hex : ∃ pm ∈ l, hu < pm.2) :
    (selectTopPodGo (l.map (fun pm => (pm.1, some pm.2))) b hu).1 =
      (l.find? (fun pm => pm.2 == foldUsageMax hu l)).map Prod.fst := by
  induction l generalizing b hu with
  | nil =>
    obtain ⟨pm, hmem, _⟩ := hex
    cases hmem
  | cons q t ih =>
    obtain ⟨p, m⟩ := q
    simp only [List.map, selectTopPodGo]
    by_cases hcase : hu < m
    · rw [if_pos hcase]
      have hmaxeq : foldUsageMax hu ((p, m) :: t) = foldUsageMax m t := by
        show foldUsageMax (max hu m) t = foldUsageMax m t
        rw [max_eq_right (le_of_lt hcase)]
      rw [hmaxeq]
      by_cases hex2 : ∃ pm ∈ t, m < pm.2
      · have hM : ((p, m).2 == foldUsageMax m t) = false := by
          obtain ⟨pm, hmem, hgt⟩ := hex2
          have hle := foldUsageMax_mem_le pm hmem m
          simp only [beq_eq_false_iff_ne, ne_eq]
          omega
        rw [List.find?_cons_of_neg _ (by simp [hM]), ih (some p) m hex2]
      · push_neg at hex2
        have hmax2 : foldUsageMax m t = m := foldUsageMax_all_le m hex2
        rw [hmax2, List.find?_cons_of_pos _ (by simp),
          selectTopPodGo_all_le t (some p) m hex2]
        rfl
    · rw [if_neg hcase]
      have hm : m ≤ hu := Nat.not_lt.mp hcase
      have hex2 : ∃ pm ∈ t, hu < pm.2 := by
        obtain ⟨pm, hmem, hgt⟩ := hex
        rcases List.mem_cons.mp hmem with rfl | hmem'
        · exact absurd hgt hcase
        · exact ⟨pm, hmem', hgt⟩
      have hmaxeq : foldUsageMax hu ((p, m) :: t) = foldUsageMax hu t := by
        show foldUsageMax (max hu m) t = foldUsageMax hu t
        rw [max_eq_left hm]
      rw [hmaxeq]
      have hM : ((p, m).2 == foldUsageMax hu t) = false := by
        obtain ⟨pm, hmem, hgt⟩ := hex2
        have hle := foldUsageMax_mem_le pm hmem hu
        simp only [beq_eq_false_iff_ne, ne_eq]
        omega
      rw [List.find?_cons_of_neg _ (by simp [hM]), ih b hu hex2]

/-- C5: for every list of pods with successfully fetched usages, the top pod
of the `analyze_pods_on_node` loop is the first pod (in listing order)
attaining the maximum usage — strict greater-than keeps the earliest max —
and among usages [50, 120, 120, 30] the first pod with value 120 wins. -/
theorem c5_top_pod_first_seen_max :
    (∀ (c : Cluster) (o : MetricsOracle) (node_name : String),
      analyze_pods_on_node c o node_name =
        (selectTopPod ((c.pods.filter (fun p => p.nodeName == node_name)).map
          (fun p => (p, get_memory_utilization o "pod" (some p.nspace) p.name)))).1) ∧
    (∀ l : List (V1Pod × Nat), (∃ pm ∈ l, 0 < pm.2) →
      (selectTopPod (l.map (fun pm => (pm.1, some pm.2)))).1 =
        (l.find? (fun pm => pm.2 == foldUsageMax 0 l)).map Prod.fst) ∧
    (∀ p1 p2 p3 p4 : V1Pod,
      selectTopPod [(p1, some 50), (p2, some 120), (p3, some 120), (p4, some 30)]
        = (some p2, 120)) :=
  ⟨fun _ _ _ => rfl,
   fun l hex => selectTopPodGo_first_max l none 0 hex,
   fun _ _ _ _ => rfl⟩

/-- A pod fixture for the selection witness. -/
def samplePod (n : String) : V1Pod := ⟨n, "default", "n1", [], []⟩

/-- C5 witness: the general first-seen-max characterization applied to the
usages [50, 120, 120, 30]. -/
theorem c5_witness :
    (selectTopPod ([(samplePod "a", 50), (samplePod "b", 120), (samplePod "c", 120),
        (samplePod "d", 30)].map (fun pm => (pm.1, some pm.2)))).1
      = some (samplePod "b") := by
  have h := c5_top_pod_first_seen_max.2.1
    [(samplePod "a", 50), (samplePod "b", 120), (samplePod "c", 120), (samplePod "d", 30)]
    ⟨(samplePod "b", 120), by decide, by decide⟩
  rw [h]
  decide

/-- C6: for every node whose capacity parses to a positive value and whose
usage fetch succeeds, the reported row carries utilization
usage / capacity × 100 (capacity in MiB being the Ki value over 1024) and is
flagged high-usage — status string and membership in the high-usage list —
exactly when that percentage is strictly greater than 80. -/
theorem c6_utilization_formula (name capStr : String) (o : MetricsOracle) (capKi u : Nat)
    (hcap : pyIntOfString (pyRstripKi capStr) = some capKi) (hpos : 0 < capKi)
    (hu : get_memory_utilization o "node" none name = some u) :
    analyze_nodes o [⟨name, capStr⟩] =
      .ok ([⟨name, ⌈((capKi : ℚ) / 1024)⌉, u,
            ((u : ℚ) / ((capKi : ℚ) / 1024)) * 100,
            if 80 < ((u : ℚ) / ((capKi : ℚ) / 1024)) * 100 then highUsageStatus
            else "OK"⟩],
          if 80 < ((u : ℚ) / ((capKi : ℚ) / 1024)) * 100 then [name] else []) := by
  have hne : ¬ ((capKi : ℚ) / 1024 = 0) := by
    have : (0 : ℚ) < (capKi : ℚ) := by exact_mod_cast hpos
    positivity
  simp only [analyze_nodes, hcap, hu]
  rw [if_neg hne]

/-- Node metrics of 801 MiB for every node. -/
def nodeOracle801 : MetricsOracle :=
  ⟨fun _ => .ok ⟨"metrics.k8s.io/v1beta1", "NodeMetrics", "t", "w", ⟨"0", "801M"⟩⟩,
   fun _ _ => .error "pod metrics unavailable"⟩

/-- Node metrics of 800 MiB for every node. -/
def nodeOracle800 : MetricsOracle :=
  ⟨fun _ => .ok ⟨"metrics.k8s.io/v1beta1", "NodeMetrics", "t", "w", ⟨"0", "800M"⟩⟩,
   fun _ _ => .error "pod metrics unavailable"⟩

/-- C6 witness: capacity 1000 MiB (capacity string "1024000Ki"): usage
801 MiB gives utilization 80.1% and the high status; usage 800 MiB gives
exactly 80% and status "OK" (the boundary is strict). -/
theorem c6_witness :
    analyze_nodes nodeOracle801 [⟨"n1", "1024000Ki"⟩]
      = .ok ([⟨"n1", 1000, 801, 801 / 10, highUsageStatus⟩], ["n1"]) ∧
    analyze_nodes nodeOracle800 [⟨"n1", "1024000Ki"⟩]
      = .ok ([⟨"n1", 1000, 800, 80, "OK"⟩], []) := by
  constructor
  · rw [c6_utilization_formula "n1" "1024000Ki" nodeOracle801 1024000 801
      (by decide) (by decide) (by decide)]
    norm_num
  · rw [c6_utilization_formula "n1" "1024000Ki" nodeOracle800 1024000 800
      (by decide) (by decide) (by decide)]
    norm_num

/-- A node whose capacity parses to a positive number and whose usage fetch
succeeds: such a node is reported normally by the node loop. -/
def reportedNormally (o : MetricsOracle) (n : NodeD) : Prop :=
  (∃ k, pyIntOfString (pyRstripKi n.capacityMemory) = some k ∧ 0 < k) ∧
  ∃ u, get_memory_utilization o "node" none n.name = some u

/-- A node whose usage fetch fails is skipped: the loop continues with the
rest (its capacity must still parse, as `int(...)` runs before the fetch). -/
lemma analyze_nodes_skip (o : MetricsOracle) (bad : NodeD) (rest : List NodeD) (k : Nat)
    (hk : pyIntOfString (pyRstripKi bad.capacityMemory) = some k)
    (hu : get_memory_utilization o "node" none bad.name = none) :
    analyze_nodes o (bad :: rest) = analyze_nodes o rest := by
  simp only [analyze_nodes, hk, hu]

/-- Every node reported normally contributes exactly its row, in order. -/
lemma analyze_nodes_all_reported (o : MetricsOracle) (l : List NodeD)
    (hgood : ∀ n ∈ l, reportedNormally o n) :
    ∃ rows high, analyze_nodes o l = .ok (rows, high) ∧
      rows.map NodeRow.name = l.map NodeD.name := by
  induction l with
  | nil => exact ⟨[], [], rfl, rfl⟩
  | cons node rest ih =>
    obtain ⟨⟨k, hk, hkpos⟩, u, hu⟩ := hgood node (List.mem_cons_self _ _)
    obtain ⟨rows, high, hrec, hnames⟩ := ih (fun n hn => hgood n (List.mem_cons_of_mem _ hn))
    have hne : ¬ ((k : ℚ) / 1024 = 0) := by
      have : (0 : ℚ) < (k : ℚ) := by exact_mod_cast hkpos
      positivity
    refine ⟨⟨node.name, ⌈((k : ℚ) / 1024)⌉, u, ((u : ℚ) / ((k : ℚ) / 1024)) * 100,
        if 80 < ((u : ℚ) / ((k : ℚ) / 1024)) * 100 then highUsageStatus else "OK"⟩ :: rows,
      (if 80 < ((u : ℚ) / ((k : ℚ) / 1024)) * 100 then node.name :: high else high),
      ?_, ?_⟩
    · simp only [analyze_nodes, hk, hu, hrec]
      rw [if_neg hne]
    · simp [hnames]

/-- Prepending normally-reported nodes prepends exactly their rows. -/
lemma analyze_nodes_prefix (o : MetricsOracle) (pre tail : List NodeD)
    (trows : List NodeRow) (thigh : List String)
    (hgood : ∀ n ∈ pre, reportedNormally o n)
    (htail : analyze_nodes o tail = .ok (trows, thigh)) :
    ∃ rows high, analyze_nodes o (pre ++ tail) = .ok (rows, high) ∧
      rows.map NodeRow.name = pre.map NodeD.name ++ trows.map NodeRow.name := by
  induction pre with
  | nil => exact ⟨trows, thigh, htail, rfl⟩
  | cons node rest ih =>
    obtain ⟨⟨k, hk, hkpos⟩, u, hu⟩ := hgood node (List.mem_cons_self _ _)
    obtain ⟨rows, high, hrec, hnames⟩ := ih (fun n hn => hgood n (List.mem_cons_of_mem _ hn))
    have hne : ¬ ((k : ℚ) / 1024 = 0) := by
      have : (0 : ℚ) < (k : ℚ) := by exact_mod_cast hkpos
      positivity
    refine ⟨⟨node.name, ⌈((k : ℚ) / 1024)⌉, u, ((u : ℚ) / ((k : ℚ) / 1024)) * 100,
        if 80 < ((u : ℚ) / ((k : ℚ) / 1024)) * 100 then highUsageStatus else "OK"⟩ :: rows,
      (if 80 < ((u : ℚ) / ((k : ℚ) / 1024)) * 100 then node.name :: high else high),
      ?_, ?_⟩
    · show analyze_nodes o (node :: (rest ++ tail)) = _
      simp only [analyze_nodes, hk, hu, hrec]
      rw [if_neg hne]
    · simp [hnames]

/-- C8: for every list of nodes in which the usage fetch fails for exactly
one node (its capacity still parses, every other node is reported normally),
the node analysis completes without raising, the failing node is absent from
the table, and the other N−1 nodes appear in order. -/
theorem c8_single_fetch_failure (o : MetricsOracle) (pre post : List NodeD) (bad : NodeD)
    (hgood : ∀ n ∈ pre ++ post, reportedNormally o n)
    (hbadcap : ∃ k, pyIntOfString (pyRstripKi bad.capacityMemory) = some k)
    (hbadu : get_memory_utilization o "node" none bad.name = none)
    (hfresh : bad.name ∉ (pre ++ post).map NodeD.name) :
    ∃ rows high, analyze_nodes o (pre ++ bad :: post) = .ok (rows, high) ∧
      rows.map NodeRow.name = (pre ++ post).map NodeD.name ∧
      rows.length = (pre ++ bad :: post).length - 1 ∧
      bad.name ∉ rows.map NodeRow.name := by
  obtain ⟨k, hk⟩ := hbadcap
  have hgoodpre : ∀ n ∈ pre, reportedNormally o n :=
    fun n hn => hgood n (List.mem_append_left _ hn)
  have hgoodpost : ∀ n ∈ post, reportedNormally o n :=
    fun n hn => hgood n (List.mem_append_right _ hn)
  obtain ⟨prows, phigh, hpost, hpnames⟩ := analyze_nodes_all_reported o post hgoodpost
  have hskip : analyze_nodes o (bad :: post) = .ok (prows, phigh) :=
    (analyze_nodes_skip o bad post k hk hbadu).trans hpost
  obtain ⟨rows, high, hall, hnames⟩ := analyze_nodes_prefix o pre (bad :: post)
    prows phigh hgoodpre hskip
  refine ⟨rows, high, hall, ?_, ?_, ?_⟩
  · rw [hnames, hpnames, List.map_append]
  · have h1 := congrArg List.length hnames
    have h2 := congrArg List.length hpnames
    simp only [List.length_map, List.length_append] at h1 h2
    simp only [List.length_append, List.length_cons]
    omega
  · rw [hnames, hpnames, ← List.map_append]
    exact hfresh

/-- Node metrics that fail for node "n2" only. -/
def failN2Oracle : MetricsOracle :=
  ⟨fun name => if name = "n2" then .error "connection reset"
    else .ok ⟨"metrics.k8s.io/v1beta1", "NodeMetrics", "t", "w", ⟨"0", "801M"⟩⟩,
   fun _ _ => .error "pod metrics unavailable"⟩

/-- C8 witness: of three nodes, the one whose fetch fails ("n2") is absent
from the table and the other two are reported in order. -/
theorem c8_witness :
    ∃ rows high,
      analyze_nodes failN2Oracle
        [⟨"n1", "1024000Ki"⟩, ⟨"n2", "2048000Ki"⟩, ⟨"n3", "1024000Ki"⟩]
        = .ok (rows, high) ∧
      rows.map NodeRow.name = ["n1", "n3"] ∧
      rows.length = 2 ∧
      "n2" ∉ rows.map NodeRow.name := by
  have h := c8_single_fetch_failure failN2Oracle [⟨"n1", "1024000Ki"⟩]
    [⟨"n3", "1024000Ki"⟩] ⟨"n2", "2048000Ki"⟩
    (by
      intro n hn
      simp only [List.mem_append, List.mem_singleton] at hn
      rcases hn with rfl | rfl
      · exact ⟨⟨1024000, by decide, by decide⟩, 801, by decide⟩
      · exact ⟨⟨1024000, by decide, by decide⟩, 801, by decide⟩)
    ⟨2048000, by decide⟩ (by decide) (by decide)
  simpa using h

/-! ## Structure of the quantity regex match -/

lemma isAlphaCh_not_digit {c : Char} (h : isAlphaCh c = true) : isDigitCh c = false := by
  cases hd : isDigitCh c with
  | false => rfl
  | true =>
    exfalso
    simp only [isAlphaCh, Bool.or_eq_true, Bool.and_eq_true, decide_eq_true_eq] at h
    simp only [isDigitCh, Bool.and_eq_true, decide_eq_true_eq] at hd
    omega

lemma isDigitCh_ne_newline {c : Char} (h : isDigitCh c = true) : c ≠ '\n' := by
  intro he
  subst he
  exact absurd h (by decide)

lemma isAlphaCh_ne_newline {c : Char} (h : isAlphaCh c = true) : c ≠ '\n' := by
  intro he
  subst he
  exact absurd h (by decide)

lemma dropTrailingNewline_id {cs : List Char} (h : ∀ c ∈ cs, c ≠ '\n') :
    dropTrailingNewline cs = cs := by
  unfold dropTrailingNewline
  cases hl : cs.getLast? with
  | none => rfl
  | some c =>
    show (if c = '\n' then cs.dropLast else cs) = cs
    rw [if_neg (h c (List.mem_of_getLast?_eq_some hl))]

/-- A block satisfying the predicate followed by a block opening with a
failing character splits takeWhile/dropWhile at the boundary. -/
lemma takeWhile_append_all (p : Char → Bool) (ds rest : List Char)
    (hds : ∀ c ∈ ds, p c = true) (hrest : ∀ c, rest.head? = some c → p c = false) :
    (ds ++ rest).takeWhile p = ds ∧ (ds ++ rest).dropWhile p = rest := by
  induction ds with
  | nil =>
    simp only [List.nil_append]
    cases rest with
    | nil => exact ⟨rfl, rfl⟩
    | cons r t =>
      have hr : p r = false := hrest r rfl
      exact ⟨by simp [List.takeWhile_cons, hr], by simp [List.dropWhile_cons, hr]⟩
  | cons d ds' ih =>
    have hd : p d = true := hds d (List.mem_cons_self _ _)
    obtain ⟨h1, h2⟩ := ih (fun c hc => hds c (List.mem_cons_of_mem _ hc))
    exact ⟨by simp [List.takeWhile_cons, hd, h1], by simp [List.dropWhile_cons, hd, h2]⟩

/-- The regex on a digit block followed by a letter block: group 1 is the
digit block, group 2 the (possibly absent) letter block. -/
lemma matchQuantity_digits_alpha (ds rest : List Char)
    (hne : ds ≠ []) (hds : ∀ c ∈ ds, isDigitCh c = true)
    (hrest : ∀ c ∈ rest, isAlphaCh c = true) :
    matchQuantity (String.mk (ds ++ rest)) =
      if rest.isEmpty then some (digitsToNat ds, none)
      else some (digitsToNat ds, some (String.mk rest)) := by
  have hnl : ∀ c ∈ ds ++ rest, c ≠ '\n' := by
    intro c hc
    rcases List.mem_append.mp hc with h | h
    · exact isDigitCh_ne_newline (hds c h)
    · exact isAlphaCh_ne_newline (hrest c h)
  have hhead : ∀ c, rest.head? = some c → isDigitCh c = false := by
    intro c hc
    cases rest with
    | nil => cases hc
    | cons r t =>
      have : c = r := by simpa using hc.symm
      subst this
      exact isAlphaCh_not_digit (hrest c (List.mem_cons_self _ _))
  obtain ⟨htake, hdrop⟩ := takeWhile_append_all isDigitCh ds rest hds hhead
  simp only [matchQuantity, String.toList]
  rw [dropTrailingNewline_id hnl, htake, hdrop]
  rw [if_neg (by simpa [List.isEmpty_iff] using hne)]
  cases rest with
  | nil => simp
  | cons r t =>
    rw [if_neg (by simp), if_pos (by simpa [List.all_eq_true] using hrest)]
    simp

/-- Parsing a digit block with a recognized unit suffix applies the unit's
exact fraction with floor division. -/
lemma parse_memory_digits_with_unit (ds : List Char) (u : String) (num den : Nat)
    (hne : ds ≠ []) (hds : ∀ c ∈ ds, isDigitCh c = true)
    (hu : quantityUnits u = some (num, den)) :
    parse_memory (String.mk ds ++ u) = .ok (digitsToNat ds * num / den) := by
  have hcases : u = "Ki" ∨ u = "M" ∨ u = "Mi" ∨ u = "G" ∨ u = "Gi" := by
    unfold quantityUnits at hu
    split_ifs at hu <;> tauto
  have halpha : ∀ c ∈ u.toList, isAlphaCh c = true := by
    rcases hcases with rfl | rfl | rfl | rfl | rfl <;> decide
  have hne2 : u.toList ≠ [] := by
    rcases hcases with rfl | rfl | rfl | rfl | rfl <;> decide
  have happ : String.mk ds ++ u = String.mk (ds ++ u.toList) := by
    cases u
    rfl
  have hmku : String.mk u.toList = u := by
    cases u
    rfl
  rw [happ]
  unfold parse_memory
  rw [matchQuantity_digits_alpha ds u.toList hne hds halpha,
    if_neg (by simpa [List.isEmpty_iff] using hne2), hmku]
  simp only [Option.getD_some, hu]

/-- Parsing a bare digit block: the unit defaults to "M", factor one. -/
lemma parse_memory_digits_no_unit (ds : List Char)
    (hne : ds ≠ []) (hds : ∀ c ∈ ds, isDigitCh c = true) :
    parse_memory (String.mk ds) = .ok (digitsToNat ds) := by
  have h := matchQuantity_digits_alpha ds [] hne hds (by intro c hc; cases hc)
  rw [List.append_nil] at h
  unfold parse_memory
  rw [h]
  simp [quantityUnits]

/-- C3: for every string of digits followed by an optional recognized unit
suffix, parse_memory returns the integer MiB value of the unit table —
Ki divides by 1024 (floor), M and Mi multiply by 1, G and Gi multiply by
1024, a missing unit is treated as M — and in particular
parse("6374M") = 6374, parse("1024Ki") = 1, parse("2G") = 2048,
parse("500") = 500. -/
theorem c3_parse_memory_unit_table :
    (∀ (ds : List Char) (u : String) (num den : Nat), ds ≠ [] →
      (∀ c ∈ ds, isDigitCh c = true) → quantityUnits u = some (num, den) →
      parse_memory (String.mk ds ++ u) = .ok (digitsToNat ds * num / den)) ∧
    (∀ ds : List Char, ds ≠ [] → (∀ c ∈ ds, isDigitCh c = true) →
      parse_memory (String.mk ds) = .ok (digitsToNat ds)) ∧
    quantityUnits "Ki" = some (1, 1024) ∧ quantityUnits "M" = some (1, 1) ∧
    quantityUnits "Mi" = some (1, 1) ∧ quantityUnits "G" = some (1024, 1) ∧
    quantityUnits "Gi" = some (1024, 1) ∧
    parse_memory "6374M" = .ok 6374 ∧ parse_memory "1024Ki" = .ok 1 ∧
    parse_memory "2G" = .ok 2048 ∧ parse_memory "500" = .ok 500 :=
  ⟨fun ds u num den hne hds hu => parse_memory_digits_with_unit ds u num den hne hds hu,
   fun ds hne hds => parse_memory_digits_no_unit ds hne hds,
   rfl, rfl, rfl, rfl, rfl, by decide, by decide, by decide, by decide⟩

/-- C3 witness: the general unit-table statement applied to "7Gi". -/
theorem c3_witness :
    parse_memory (String.mk ['7'] ++ "Gi") = .ok (digitsToNat ['7'] * 1024 / 1) :=
  c3_parse_memory_unit_table.1 ['7'] "Gi" 1024 1 (by decide) (by decide) rfl

/-- C4: parse_memory fails — with the invalid-format error carrying the whole
string, or the unsupported-unit error carrying the unit — exactly when the
string does not match the regex or its (defaulted) unit is not in the table;
in particular parse("2X") and parse("abc") fail. -/
theorem c4_parse_memory_failure_characterization (value : String) :
    ((∃ e, parse_memory value = .error e) ↔
      matchQuantity value = none ∨
      ∃ n uo, matchQuantity value = some (n, uo) ∧ quantityUnits (uo.getD "M") = none) ∧
    (matchQuantity value = none →
      parse_memory value = .error (.invalidFormat value)) ∧
    (∀ n uo, matchQuantity value = some (n, uo) → quantityUnits (uo.getD "M") = none →
      parse_memory value = .error (.unsupportedUnit (uo.getD "M"))) ∧
    parse_memory "2X" = .error (.unsupportedUnit "X") ∧
    parse_memory "abc" = .error (.invalidFormat "abc") := by
  have hfmt : matchQuantity value = none →
      parse_memory value = .error (.invalidFormat value) := by
    intro h
    unfold parse_memory
    rw [h]
  have hunit : ∀ n uo, matchQuantity value = some (n, uo) →
      quantityUnits (uo.getD "M") = none →
      parse_memory value = .error (.unsupportedUnit (uo.getD "M")) := by
    intro n uo hmq hqu
    unfold parse_memory
    rw [hmq]
    simp only [hqu]
  refine ⟨?_, hfmt, hunit, by decide, by decide⟩
  constructor
  · rintro ⟨e, he⟩
    cases hmq : matchQuantity value with
    | none => exact Or.inl rfl
    | some x =>
      obtain ⟨n, uo⟩ := x
      right
      refine ⟨n, uo, rfl, ?_⟩
      cases hqu : quantityUnits (uo.getD "M") with
      | none => rfl
      | some nd =>
        exfalso
        unfold parse_memory at he
        rw [hmq] at he
        simp only [hqu] at he
        cases he
  · rintro (h | ⟨n, uo, hmq, hqu⟩)
    · exact ⟨_, hfmt h⟩
    · exact ⟨_, hunit n uo hmq hqu⟩

/-- C4 witness: the failure characterization applied to "2X", whose unit X
is outside the table. -/
theorem c4_witness : parse_memory "2X" = .error (.unsupportedUnit "X") :=
  (c4_parse_memory_failure_characterization "2X").2.2.1 2 (some "X") (by decide) rfl

end NodeMem
